import Mathlib

/-!
Verification of the librepods linux-rust daemon against its design
specification.  The Rust sources are shallowly embedded: bytes are `Nat`,
byte strings are `List Nat`, the AES-128 block primitives (library calls in
the source) are abstract function parameters, and the stateful monitor /
session loops become explicit state-passing step functions.
-/

namespace LibrePods

/-! ## Hex parsing (`u8::from_str_radix(s, 16)` and `hex::decode`) -/

/-- Value of a single hexadecimal digit, `none` for a non-hex character. -/
def hexDigitVal (c : Char) : Option Nat :=
  if '0' ≤ c ∧ c ≤ '9' then some (c.toNat - '0'.toNat)
  else if 'a' ≤ c ∧ c ≤ 'f' then some (c.toNat - 'a'.toNat + 10)
  else if 'A' ≤ c ∧ c ≤ 'F' then some (c.toNat - 'A'.toNat + 10)
  else none

/-- Embeds `u8::from_str_radix(s, 16)`: a non-empty all-hex string whose
value fits in a byte (sign prefixes are not modelled; the addresses and keys
concerned are plain hex).  The accumulator is monotone, so checking the
overflow bound once at the end agrees with Rust's per-step overflow error. -/
def parseHexU8 (cs : List Char) : Option Nat :=
  if cs.isEmpty then none
  else
    (cs.foldl
      (fun acc c => acc.bind fun a => (hexDigitVal c).map fun d => a * 16 + d)
      (some 0)).bind
      fun v => if v < 256 then some v else none

/-- Embeds Rust's `str::split(':')` on the character list of the string:
the separators delimit (possibly empty) groups, and the empty string yields
one empty group. -/
def splitOnColon : List Char → List (List Char)
  | [] => [[]]
  | c :: rest =>
    if c = ':' then [] :: splitOnColon rest
    else
      match splitOnColon rest with
      | [] => [[c]]
      | g :: gs => (c :: g) :: gs

/-- Embeds `hex::decode` on a list of characters: pairs of hex digits become
bytes; an odd-length or non-hex input fails. -/
def hexDecodeChars : List Char → Option (List Nat)
  | [] => some []
  | [_] => none
  | c1 :: c2 :: rest =>
    (hexDigitVal c1).bind fun h =>
      (hexDigitVal c2).bind fun l =>
        (hexDecodeChars rest).map fun tail => (h * 16 + l) :: tail

/-- Embeds `hex::decode` on a string. -/
def hexDecode (s : String) : Option (List Nat) :=
  hexDecodeChars s.data

/-! ## BLE crypto path (`src/bluetooth/le.rs`)

The AES-128 single-block primitives of the `aes` crate
(`Aes128::encrypt_block` / `Aes128::decrypt_block`) are external library
code; they enter the embedding as abstract parameters
`aesEnc aesDec : List Nat → List Nat → List Nat` (key, block ↦ block). -/

/-- Embeds `fn e(key, data)` of `le.rs`: reverse the key bytes and the
plaintext block, AES-128-encrypt, and reverse the ciphertext. -/
def e (aesEnc : List Nat → List Nat → List Nat) (key data : List Nat) : List Nat :=
  (aesEnc key.reverse data.reverse).reverse

/-- Embeds `fn decrypt(key, data)` of `le.rs`: plain AES-128-ECB block
decryption, key and block in their natural byte order. -/
def decrypt (aesDec : List Nat → List Nat → List Nat) (key data : List Nat) : List Nat :=
  aesDec key data

/-- Embeds `fn ah(k, r)` of `le.rs`: zero-extend the 3-byte `r` to a 16-byte
block, encrypt with `e`, and keep the first 3 bytes. -/
def ah (aesEnc : List Nat → List Nat → List Nat) (k r : List Nat) : List Nat :=
  (e aesEnc k (r ++ List.replicate 13 0)).take 3

/-- Embeds the address parse inside `fn verify_rpa`: split the textual
address on `:` and parse each component as a hex byte
(`u8::from_str_radix(s, 16)`; an unparsable component panics in the source,
modelled as `none`). -/
def parseAddr (addr : String) : Option (List Nat) :=
  (splitOnColon addr.data).mapM parseHexU8

/-- Embeds `fn verify_rpa(addr, irk)` of `le.rs`: parse and reverse the
address bytes, reject a non-6-byte result, split into `hash = rpa[0..3]` and
`prand = rpa[3..6]`, and compare `hash` with `ah irk prand`. -/
def verify_rpa (aesEnc : List Nat → List Nat → List Nat)
    (addr : String) (irk : List Nat) : Option Bool :=
  (parseAddr addr).map fun bytes =>
    let rpa := bytes.reverse
    if rpa.length ≠ 6 then false
    else decide (rpa.take 3 = ah aesEnc irk ((rpa.drop 3).take 3))

/-- Follows the spec's words (refinement counterpart of `verify_rpa`):
interpret the 6 address bytes in reverse order relative to the textual
form, split into a 3-byte prand and the 3-byte embedded hash, compute
AES-128-ECB of the zero-extended prand with key and plaintext byte-reversed
before encrypting and the ciphertext byte-reversed afterwards, truncate to
3 bytes, and report a match exactly when that equals the embedded hash. -/
def specVerifyRpa (aesEnc : List Nat → List Nat → List Nat)
    (addrBytes irk : List Nat) : Bool :=
  let rpa := addrBytes.reverse
  let prand := rpa.drop 3
  let hash := rpa.take 3
  let plain := prand ++ List.replicate 13 0
  let cipher := (aesEnc irk.reverse plain.reverse).reverse
  decide (hash = cipher.take 3)

/-! ## Telemetry decoding (`start_le_monitor` in `src/bluetooth/le.rs`) -/

/-- Battery status enum of the `bluetooth::aacp` module (variants as used by
`le.rs` and `airpods.rs`; the module itself is not part of the sources, its
variants are determined by every use site). -/
inductive BatteryStatus
  | Charging
  | NotCharging
  | Disconnected
deriving DecidableEq

/-- Embeds `let primary_left = (status >> 5) & 0x01 == 1`. -/
def primary_left (status : Nat) : Bool :=
  decide ((status >>> 5) &&& 0x01 = 1)

/-- Embeds `let this_in_case = (status >> 6) & 0x01 == 1`. -/
def this_in_case (status : Nat) : Bool :=
  decide ((status >>> 6) &&& 0x01 = 1)

/-- Embeds `let xor_factor = primary_left ^ this_in_case`. -/
def xor_factor (status : Nat) : Bool :=
  Bool.xor (primary_left status) (this_in_case status)

/-- Embeds `let is_left_in_ear = if xor_factor { status & 0x02 != 0 } else
{ status & 0x08 != 0 }`. -/
def is_left_in_ear (status : Nat) : Bool :=
  if xor_factor status then decide (status &&& 0x02 ≠ 0)
  else decide (status &&& 0x08 ≠ 0)

/-- Embeds `let is_right_in_ear = if xor_factor { status & 0x08 != 0 } else
{ status & 0x02 != 0 }`. -/
def is_right_in_ear (status : Nat) : Bool :=
  if xor_factor status then decide (status &&& 0x08 ≠ 0)
  else decide (status &&& 0x02 ≠ 0)

/-- Embeds `let is_flipped = !primary_left`. -/
def is_flipped (status : Nat) : Bool :=
  !primary_left status

/-- Embeds `let left_byte_index = if is_flipped { 2 } else { 1 }`. -/
def left_byte_index (status : Nat) : Nat :=
  if is_flipped status then 2 else 1

/-- Embeds `let right_byte_index = if is_flipped { 1 } else { 2 }`. -/
def right_byte_index (status : Nat) : Nat :=
  if is_flipped status then 1 else 2

/-- Decoded per-report telemetry: the raw battery bytes read from the
decrypted block plus the two in-ear flags, exactly the values the monitor
derives from a status byte and a decrypted block. -/
structure Telemetry where
  leftByte : Nat
  rightByte : Nat
  caseByte : Nat
  leftInEar : Bool
  rightInEar : Bool
deriving DecidableEq

/-- Embeds the status/block decoding of the monitor: `left_byte =
decrypted[left_byte_index]`, `right_byte = decrypted[right_byte_index]`,
`case_byte = decrypted[3]`, plus the two in-ear bits. -/
def decodeTelemetry (status : Nat) (decrypted : List Nat) : Telemetry :=
  { leftByte := decrypted.getD (left_byte_index status) 0
    rightByte := decrypted.getD (right_byte_index status) 0
    caseByte := decrypted.getD 3 0
    leftInEar := is_left_in_ear status
    rightInEar := is_right_in_ear status }

/-- Swap of all left/right outputs of a decoded telemetry record. -/
def swapLR (t : Telemetry) : Telemetry :=
  { t with
    leftByte := t.rightByte
    rightByte := t.leftByte
    leftInEar := t.rightInEar
    rightInEar := t.leftInEar }

/-- Swap of only the left/right battery bytes of a decoded telemetry
record (in-ear flags untouched). -/
def swapBatteryLR (t : Telemetry) : Telemetry :=
  { t with
    leftByte := t.rightByte
    rightByte := t.leftByte }

/-! ## Battery bytes -/

/-- Embeds `let (battery, charging) = if byte == 0xff { (0, false) } else
{ (byte & 0x7F, (byte & 0x80) != 0) }`. -/
def battery_pair (b : Nat) : Nat × Bool :=
  if b = 0xff then (0, false)
  else (b &&& 0x7F, decide (b &&& 0x80 ≠ 0))

/-- Embeds the tray level assignment: `if byte == 0xff { None } else
{ Some(battery) }`. -/
def batteryLevel (b : Nat) : Option Nat :=
  if b = 0xff then none else some (battery_pair b).1

/-- Embeds the tray status assignment: `if byte == 0xff { Disconnected }
else if charging { Charging } else { NotCharging }`. -/
def batteryStatus (b : Nat) : BatteryStatus :=
  if b = 0xff then BatteryStatus.Disconnected
  else if (battery_pair b).2 then BatteryStatus.Charging
  else BatteryStatus.NotCharging

/-! ## Payload decryption guard -/

/-- Embeds the session-key extraction of the monitor: `matched_enc_key` is
set exactly when the record's `enc_key` hex string is non-empty, decodes,
and yields 16 bytes. -/
def extractEncKey (encKeyHex : String) : Option (List Nat) :=
  if encKeyHex.data.isEmpty then none
  else
    match hexDecode encKeyHex with
    | some bytes => if bytes.length = 16 then some bytes else none
    | none => none

/-- Embeds the manufacturer-data handling: with a session key present and
`apple_data.len() > 20`, decrypt the trailing 16 bytes
(`apple_data[apple_data.len() - 16..]`) with `decrypt`; otherwise no
telemetry block is produced. -/
def processManufacturerData (aesDec : List Nat → List Nat → List Nat)
    (encKey : Option (List Nat)) (appleData : List Nat) : Option (List Nat) :=
  match encKey with
  | none => none
  | some key =>
    if appleData.length > 20 then
      some (decrypt aesDec key (appleData.drop (appleData.length - 16)))
    else none

/-! ## Post-connect bring-up (`AirPodsDevice::new` in `src/airpods.rs`) -/

/-- The five bring-up writes, in source order: `send_handshake`,
`send_set_feature_flags_packet`, `send_notification_request`,
`send_some_packet` (the vendor init packet), and
`send_proximity_keys_request`. -/
inductive HandshakeStep
  | handshake
  | setFeatureFlags
  | requestNotifications
  | initPacket
  | proximityKeys
deriving DecidableEq

/-- Observable events of the bring-up sequence: a write of one step, the
error log emitted when that write fails, and the `sleep(100ms)` settling
delay. -/
inductive BringUpOp
  | write (s : HandshakeStep)
  | logError (s : HandshakeStep)
  | settleDelay
deriving DecidableEq

/-- Embeds one `if let Err(e) = …send…().await { error!(…) }`: the write is
issued, and a failure only adds a log entry. -/
def runStep (fails : HandshakeStep → Bool) (s : HandshakeStep) : List BringUpOp :=
  BringUpOp.write s :: (if fails s then [BringUpOp.logError s] else [])

/-- Embeds the bring-up trace of `AirPodsDevice::new`, parametrised by which
step writes fail: handshake, `sleep(100)`, feature flags, `sleep(100)`,
notification request, init packet, proximity-keys request. -/
def bringUp (fails : HandshakeStep → Bool) : List BringUpOp :=
  runStep fails HandshakeStep.handshake ++ [BringUpOp.settleDelay]
    ++ runStep fails HandshakeStep.setFeatureFlags ++ [BringUpOp.settleDelay]
    ++ runStep fails HandshakeStep.requestNotifications
    ++ runStep fails HandshakeStep.initPacket
    ++ runStep fails HandshakeStep.proximityKeys

/-- The sequence of steps written in a bring-up trace. -/
def writesOf (ops : List BringUpOp) : List HandshakeStep :=
  ops.filterMap fun op =>
    match op with
    | BringUpOp.write s => some s
    | _ => none

/-- Whether, scanning forward past error logs, a settling delay comes before
the next write (vacuously true at the end of the trace). -/
def nextWriteAfterDelay : List BringUpOp → Bool
  | [] => true
  | BringUpOp.write _ :: _ => false
  | BringUpOp.settleDelay :: _ => true
  | BringUpOp.logError _ :: rest => nextWriteAfterDelay rest

/-- For each write of the trace in order, whether a settling delay separates
it from the following write. -/
def delayFollows : List BringUpOp → List Bool
  | [] => []
  | BringUpOp.write _ :: rest => nextWriteAfterDelay rest :: delayFollows rest
  | BringUpOp.logError _ :: rest => delayFollows rest
  | BringUpOp.settleDelay :: rest => delayFollows rest

/-- Whether every write of the trace is separated from the next write by a
settling delay. -/
def delayBetweenWrites (ops : List BringUpOp) : Bool :=
  (delayFollows ops).all fun b => b

/-! ## Multi-device hand-off (`ConnectedDevices` arm of `AirPodsDevice::new`) -/

/-- Entry of the accessory's connected-device list, as used by the
`ConnectedDevices(old_devices, new_devices)` arm. -/
structure ConnectedDeviceInfo where
  mac : String
  info1 : String
  info2 : String
deriving DecidableEq

/-- The two packets of one hand-off action:
`send_media_information_new_device(local, peer)` and
`send_add_tipi_device(local, peer)`. -/
inductive HandOffPacket
  | mediaInformation (localMac peerMac : String)
  | addPeer (localMac peerMac : String)
deriving DecidableEq

/-- Embeds `new_devices_filtered`: keep the entries of the new list whose
MAC occurs in no old entry and differs from the local adapter's MAC. -/
def new_devices_filtered (localMac : String)
    (oldDevices newDevices : List ConnectedDeviceInfo) : List ConnectedDeviceInfo :=
  newDevices.filter fun nd =>
    (oldDevices.all fun od => od.mac != nd.mac) && nd.mac != localMac

/-- Embeds the per-peer spawned task: for each filtered device, one action
that sends the media-information packet then the add-peer packet. -/
def handOffActions (localMac : String)
    (oldDevices newDevices : List ConnectedDeviceInfo) : List (List HandOffPacket) :=
  (new_devices_filtered localMac oldDevices newDevices).map fun d =>
    [HandOffPacket.mediaInformation localMac d.mac,
     HandOffPacket.addPeer localMac d.mac]

/-! ## Ownership loss (`OwnershipToFalseRequest` arm and `OwnsConnection`
subscriber of `AirPodsDevice::new`) -/

/-- Control-command identifiers of the `bluetooth::aacp` module (variants
as used by `airpods.rs` and listed by the design). -/
inductive ControlCommandIdentifiers
  | ListeningMode
  | AllowOffOption
  | ConversationDetectConfig
  | AdaptiveVolumeConfig
  | OwnsConnection
deriving DecidableEq

/-- Actions a session handler can take on the command queue and the media
controller collaborator. -/
inductive SessionAction
  | enqueueCommand (id : ControlCommandIdentifiers) (value : List Nat)
  | pauseAllMedia
  | deactivateA2dp
deriving DecidableEq

/-- Embeds the `OwnershipToFalseRequest` arm: send
`(OwnsConnection, [0x00])` on the command channel, then
`pause_all_media()` and `deactivate_a2dp_profile()`. -/
def ownershipToFalseHandler : List SessionAction :=
  [SessionAction.enqueueCommand ControlCommandIdentifiers.OwnsConnection [0x00],
   SessionAction.pauseAllMedia,
   SessionAction.deactivateA2dp]

/-- Embeds the `OwnsConnection` subscriber task:
`owns = value.get(0).copied().unwrap_or(0) != 0`; when ownership is lost,
pause all media and deactivate the audio profile. -/
def ownsConnectionSubscriber (value : List Nat) : List SessionAction :=
  if value.getD 0 0 ≠ 0 then []
  else [SessionAction.pauseAllMedia, SessionAction.deactivateA2dp]

/-! ## Monitor caches (`start_le_monitor` in `src/bluetooth/le.rs`) -/

/-- Device type enum of the `bluetooth::aacp` module.  The `PartialEq`
implementation in `le.rs` matches `(AirPods, AirPods)` exhaustively, so the
enum has exactly this variant. -/
inductive DeviceType
  | AirPods
deriving DecidableEq

/-- LE key material of a device record (hex strings), per the design's
`DeviceRecord` and every use site in `le.rs`. -/
structure LEData where
  irk : String
  enc_key : String
deriving DecidableEq

/-- Persisted device record of the `bluetooth::aacp` module as read from
`devices.json` (fields as used by `le.rs`). -/
structure DeviceData where
  type_ : DeviceType
  le : LEData
deriving DecidableEq

/-- The two address caches of one monitor run: `verified_macs` (advertising
address to device MAC) and `failed_macs`. -/
structure MonitorCache where
  verified : List (String × String)
  failed : List String
deriving DecidableEq

/-- Embeds the record loop of the monitor: for each known record of type
AirPods whose IRK hex-decodes to 16 bytes, run `verify_rpa`; stop at the
first match.  Returns the matched device MAC (if any) together with the
number of `verify_rpa` invocations performed; `none` models a panic inside
`verify_rpa`. -/
def checkRecords (aesEnc : List Nat → List Nat → List Nat) (addr : String) :
    List (String × DeviceData) → Option (Option String × Nat)
  | [] => some (none, 0)
  | (airpodsMac, dd) :: rest =>
    if dd.type_ = DeviceType.AirPods then
      match hexDecode dd.le.irk with
      | some irkBytes =>
        if irkBytes.length = 16 then
          match verify_rpa aesEnc addr irkBytes with
          | none => none
          | some true => some (some airpodsMac, 1)
          | some false =>
            (checkRecords aesEnc addr rest).map fun p => (p.1, p.2 + 1)
        else checkRecords aesEnc addr rest
      | none => checkRecords aesEnc addr rest
    else checkRecords aesEnc addr rest

/-- Outcome of handling one advertisement report: which device matched (if
any), the caches afterwards, and how many RPA verifications ran. -/
structure ReportOutcome where
  matched : Option String
  cache : MonitorCache
  verifications : Nat
deriving DecidableEq

/-- Embeds the per-report cache logic of `start_le_monitor`: a hit in
`verified_macs` matches immediately; a hit in `failed_macs` skips; otherwise
the known records are checked, and the verdict is inserted into the
corresponding cache. -/
def processReport (aesEnc : List Nat → List Nat → List Nat)
    (devices : List (String × DeviceData)) (st : MonitorCache) (addr : String) :
    Option ReportOutcome :=
  match st.verified.lookup addr with
  | some mac => some ⟨some mac, st, 0⟩
  | none =>
    if addr ∈ st.failed then some ⟨none, st, 0⟩
    else
      match checkRecords aesEnc addr devices with
      | none => none
      | some (some mac, n) =>
        some ⟨some mac, ⟨(addr, mac) :: st.verified, st.failed⟩, n⟩
      | some (none, n) =>
        some ⟨none, ⟨st.verified, addr :: st.failed⟩, n⟩

/-! ## In-flight connection set -/

/-- Observable operations of one auto-connect task on the shared
`connecting_macs` set and the external connect utility. -/
inductive ConnectOp
  | insertOp (addr : String)
  | attemptOp (addr : String)
  | removeOp (addr : String)
deriving DecidableEq

/-- Embeds the guarded connect attempt of the monitor: skip when the address
is already in the in-flight set; otherwise insert it, issue the
`bluetoothctl connect` attempt, and remove the address only when the attempt
reports success.  Returns the operation trace and the set afterwards. -/
def connectAttempt (cm : List String) (addr : String) (succeeds : Bool) :
    List ConnectOp × List String :=
  if addr ∈ cm then ([], cm)
  else if succeeds then
    ([ConnectOp.insertOp addr, ConnectOp.attemptOp addr, ConnectOp.removeOp addr],
      (addr :: cm).erase addr)
  else
    ([ConnectOp.insertOp addr, ConnectOp.attemptOp addr], addr :: cm)

/-! ## Auto-connect preference -/

/-- The parsed shape of `preferences.json`: device MAC to per-device boolean
preferences. -/
abbrev Preferences := List (String × List (String × Bool))

/-- Embeds `read_to_string(...).ok().and_then(parse).unwrap_or_default()`:
a missing or unparsable file yields the empty preference map. -/
def loadPreferences (raw : Option Preferences) : Preferences :=
  raw.getD []

/-- Embeds the preference lookup: `preferences.get(mac).and_then(|p|
p.get("autoConnect")).copied().unwrap_or(true)`. -/
def autoConnectPref (preferences : Preferences) (mac : String) : Bool :=
  (((preferences.lookup mac).bind fun p => p.lookup "autoConnect").getD true)

/-- Embeds the reconnect guard: the connection-state byte must be `0x00` and
the per-device auto-connect preference must hold. -/
def shouldAttemptReconnect (connectionState : Nat) (raw : Option Preferences)
    (mac : String) : Bool :=
  connectionState == 0 && autoConnectPref (loadPreferences raw) mac

/-! ## Theorems -/

theorem primary_left_testBit (s : Nat) : primary_left s = s.testBit 5 := by
  simp [primary_left, Nat.and_one_is_mod, Nat.shiftRight_eq_div_pow,
    Nat.testBit_to_div_mod]

theorem this_in_case_testBit (s : Nat) : this_in_case s = s.testBit 6 := by
  simp [this_in_case, Nat.and_one_is_mod, Nat.shiftRight_eq_div_pow,
    Nat.testBit_to_div_mod]

theorem primary_left_flip56 (s : Nat) :
    primary_left (s ^^^ 0x60) = !primary_left s := by
  rw [primary_left_testBit, primary_left_testBit, Nat.testBit_xor]
  have h96 : Nat.testBit 0x60 5 = true := by decide
  simp [h96]

theorem this_in_case_flip56 (s : Nat) :
    this_in_case (s ^^^ 0x60) = !this_in_case s := by
  rw [this_in_case_testBit, this_in_case_testBit, Nat.testBit_xor]
  have h96 : Nat.testBit 0x60 6 = true := by decide
  simp [h96]

theorem xor_factor_flip56 (s : Nat) : xor_factor (s ^^^ 0x60) = xor_factor s := by
  rw [xor_factor, xor_factor, primary_left_flip56, this_in_case_flip56]
  cases primary_left s <;> cases this_in_case s <;> rfl

theorem and_flip56_low (s : Nat) :
    (s ^^^ 0x60) &&& 0x02 = s &&& 0x02 ∧ (s ^^^ 0x60) &&& 0x08 = s &&& 0x08 := by
  have h2 : (0x60 : Nat) &&& 0x02 = 0 := by decide
  have h8 : (0x60 : Nat) &&& 0x08 = 0 := by decide
  constructor
  · rw [Nat.and_xor_distrib_right, h2, Nat.xor_zero]
  · rw [Nat.and_xor_distrib_right, h8, Nat.xor_zero]

theorem in_ear_flip56 (s : Nat) :
    is_left_in_ear (s ^^^ 0x60) = is_left_in_ear s
    ∧ is_right_in_ear (s ^^^ 0x60) = is_right_in_ear s := by
  obtain ⟨h2, h8⟩ := and_flip56_low s
  constructor <;>
    simp only [is_left_in_ear, is_right_in_ear, xor_factor_flip56, h2, h8]

/-- C1: RPA verification splits the reversed address bytes into a 3-byte
prand and a 3-byte embedded hash, encrypts the zero-extended prand with
AES-128-ECB where the key and plaintext block are byte-reversed before
encrypting and the ciphertext is byte-reversed afterwards, truncates to
3 bytes, and reports a match exactly when that equals the embedded hash
(stated as equality of `verify_rpa` with the spec-side `specVerifyRpa`). -/
theorem verify_rpa_eq_spec (aesEnc : List Nat → List Nat → List Nat)
    (addr : String) (irk bytes : List Nat)
    (hp : parseAddr addr = some bytes) (h6 : bytes.length = 6) :
    verify_rpa aesEnc addr irk = some (specVerifyRpa aesEnc bytes irk) := by
  unfold verify_rpa specVerifyRpa
  rw [hp]
  have hlen : bytes.reverse.length = 6 := by simp [h6]
  have hdrop : (bytes.reverse.drop 3).take 3 = bytes.reverse.drop 3 := by
    apply List.take_of_length_le
    simp [hlen]
  have hne : ¬ bytes.reverse.length ≠ 6 := by simp [h6]
  simp only [Option.map_some', Option.some.injEq]
  rw [if_neg hne, hdrop]
  rfl

/-- Witness for C1 at a concrete address, identity key, and a concrete AES
parameter. -/
theorem verify_rpa_eq_spec_witness :
    parseAddr "0a:1b:02:03:04:05" = some [10, 27, 2, 3, 4, 5]
    ∧ verify_rpa (fun _ d => d) "0a:1b:02:03:04:05" (List.replicate 16 7)
        = some (specVerifyRpa (fun _ d => d) [10, 27, 2, 3, 4, 5]
            (List.replicate 16 7)) :=
  ⟨by decide,
    verify_rpa_eq_spec (fun _ d => d) "0a:1b:02:03:04:05"
      (List.replicate 16 7) [10, 27, 2, 3, 4, 5] (by decide) (by decide)⟩

/-- C2 counterexample: the battery byte offsets are decided by
`!primary_left` alone, not by `primary_left XOR this_in_case`, and flipping
status bits 5 and 6 together does not swap the in-ear outputs (statuses
`0x00` and `0x60` share `xor_factor` but use different offsets; the decode
of `0x02` with bits 5,6 flipped is not the left/right swap of the decode of
`0x02`). -/
theorem telemetry_flip_counterexample :
    xor_factor 0x00 = xor_factor 0x60
    ∧ left_byte_index 0x00 ≠ left_byte_index 0x60
    ∧ decodeTelemetry (0x02 ^^^ 0x60) [0, 10, 20, 30]
        ≠ swapLR (decodeTelemetry 0x02 [0, 10, 20, 30]) := by
  decide

/-- C2 (amended): `flip = primary_left XOR this_in_case` decides only the
in-ear bit assignment; the battery byte offsets 1 and 2 are decided by
`primary_left` alone; byte offset 3 is always the case battery; flipping
status bits 5 and 6 together swaps exactly the left/right battery bytes and
leaves the in-ear outputs unchanged. -/
theorem telemetry_flip_amended (status : Nat) (blk : List Nat) :
    decodeTelemetry (status ^^^ 0x60) blk = swapBatteryLR (decodeTelemetry status blk)
    ∧ left_byte_index status = (if primary_left status then 1 else 2)
    ∧ right_byte_index status = (if primary_left status then 2 else 1)
    ∧ (decodeTelemetry status blk).caseByte = blk.getD 3 0 := by
  have hl : left_byte_index (status ^^^ 0x60) = right_byte_index status := by
    simp only [left_byte_index, right_byte_index, is_flipped, primary_left_flip56]
    rcases Bool.eq_false_or_eq_true (primary_left status) with hpl | hpl <;>
      simp [hpl]
  have hr : right_byte_index (status ^^^ 0x60) = left_byte_index status := by
    simp only [left_byte_index, right_byte_index, is_flipped, primary_left_flip56]
    rcases Bool.eq_false_or_eq_true (primary_left status) with hpl | hpl <;>
      simp [hpl]
  obtain ⟨hle, hre⟩ := in_ear_flip56 status
  refine ⟨?_, ?_, ?_, rfl⟩
  · simp [decodeTelemetry, swapBatteryLR, hl, hr, hle, hre]
  · simp only [left_byte_index, is_flipped]
    rcases Bool.eq_false_or_eq_true (primary_left status) with hpl | hpl <;>
      simp [hpl]
  · simp only [right_byte_index, is_flipped]
    rcases Bool.eq_false_or_eq_true (primary_left status) with hpl | hpl <;>
      simp [hpl]

/-- Witness for C2 (amended) at the concrete status `0x02` and a concrete
block. -/
theorem telemetry_flip_amended_witness :
    decodeTelemetry (0x02 ^^^ 0x60) [0, 10, 20, 30]
      = swapBatteryLR (decodeTelemetry 0x02 [0, 10, 20, 30]) :=
  (telemetry_flip_amended 0x02 [0, 10, 20, 30]).1

/-- C3: battery byte `0xFF` yields an absent level with status Disconnected;
any other byte yields its low 7 bits as the level, with status Charging
exactly when bit 7 is set. -/
theorem battery_byte_decoding (b : Nat) (hb : b < 256) :
    (b = 0xff → batteryLevel b = none ∧ batteryStatus b = BatteryStatus.Disconnected)
    ∧ (b ≠ 0xff →
        batteryLevel b = some (b % 128)
        ∧ batteryStatus b
            = (if b.testBit 7 then BatteryStatus.Charging else BatteryStatus.NotCharging)) := by
  constructor
  · intro h
    subst h
    exact ⟨rfl, rfl⟩
  · intro h
    have hmod : b &&& 0x7F = b % 128 := by
      have := Nat.and_pow_two_sub_one_eq_mod b 7
      norm_num at this
      exact this
    have hbit : (b &&& 0x80 ≠ 0) ↔ b.testBit 7 = true := by
      have h80 : b &&& 0x80 = (b.testBit 7).toNat * 128 := by
        have := Nat.and_two_pow b 7
        norm_num at this
        exact this
      rw [h80]
      cases b.testBit 7 <;> simp
    constructor
    · simp [batteryLevel, battery_pair, h, hmod]
    · by_cases h7 : b.testBit 7 = true
      · simp [batteryStatus, battery_pair, h, hbit, h7]
      · simp only [Bool.not_eq_true] at h7
        simp [batteryStatus, battery_pair, h, h7, hbit]

/-- Witness for C3 at the three sample bytes of the spec: `0xFF`, `0x55`
and `0xD5`. -/
theorem battery_byte_decoding_witness :
    (batteryLevel 0xFF = none ∧ batteryStatus 0xFF = BatteryStatus.Disconnected)
    ∧ (batteryLevel 0x55 = some 85 ∧ batteryStatus 0x55 = BatteryStatus.NotCharging)
    ∧ (batteryLevel 0xD5 = some 85 ∧ batteryStatus 0xD5 = BatteryStatus.Charging) := by
  have hff := (battery_byte_decoding 0xFF (by decide)).1 rfl
  have h55 := (battery_byte_decoding 0x55 (by decide)).2 (by decide)
  have hd5 := (battery_byte_decoding 0xD5 (by decide)).2 (by decide)
  refine ⟨hff, ⟨?_, ?_⟩, ⟨?_, ?_⟩⟩
  · simpa using h55.1
  · simpa using h55.2
  · simpa using hd5.1
  · simpa using hd5.2

/-- C4: with a verified device whose record holds a non-empty 16-byte
session key, a manufacturer payload of at least 21 bytes has exactly its
trailing 16 bytes decrypted by standard AES-128-ECB in natural byte order
(`decrypt` applies the primitive directly, unlike `e` on the RPA path), and
a shorter payload produces no telemetry block. -/
theorem payload_decrypt_guard (aesDec : List Nat → List Nat → List Nat)
    (encKeyHex : String) (key appleData : List Nat)
    (hk : extractEncKey encKeyHex = some key) :
    key.length = 16
    ∧ decrypt aesDec key (appleData.drop (appleData.length - 16))
        = aesDec key (appleData.drop (appleData.length - 16))
    ∧ (21 ≤ appleData.length →
        processManufacturerData aesDec (extractEncKey encKeyHex) appleData
          = some (aesDec key (appleData.drop (appleData.length - 16)))
        ∧ (appleData.drop (appleData.length - 16)).length = 16)
    ∧ (appleData.length ≤ 20 →
        processManufacturerData aesDec (extractEncKey encKeyHex) appleData = none) := by
  have hk16 : key.length = 16 := by
    unfold extractEncKey at hk
    split at hk
    · simp at hk
    · split at hk
      · split at hk
        · simp only [Option.some.injEq] at hk
          subst hk
          assumption
        · simp at hk
      · simp at hk
  refine ⟨hk16, rfl, ?_, ?_⟩
  · intro h21
    rw [hk]
    constructor
    · simp only [processManufacturerData]
      rw [if_pos (by omega)]
      rfl
    · rw [List.length_drop]
      omega
  · intro h20
    rw [hk]
    simp only [processManufacturerData]
    rw [if_neg (by omega)]

/-- Witness for C4: a concrete 16-byte key with a 21-byte and a 20-byte
payload. -/
theorem payload_decrypt_guard_witness :
    processManufacturerData (fun _ d => d)
        (extractEncKey "00112233445566778899aabbccddeeff") (List.range 21)
      = some ((List.range 21).drop 5)
    ∧ processManufacturerData (fun _ d => d)
        (extractEncKey "00112233445566778899aabbccddeeff") (List.range 20)
      = none := by
  have h1 := payload_decrypt_guard (fun _ d => d) "00112233445566778899aabbccddeeff"
    [0, 17, 34, 51, 68, 85, 102, 119, 136, 153, 170, 187, 204, 221, 238, 255]
    (List.range 21) (by decide)
  have h2 := payload_decrypt_guard (fun _ d => d) "00112233445566778899aabbccddeeff"
    [0, 17, 34, 51, 68, 85, 102, 119, 136, 153, 170, 187, 204, 221, 238, 255]
    (List.range 20) (by decide)
  refine ⟨?_, h2.2.2.2 (by simp)⟩
  have h := (h1.2.2.1 (by simp)).1
  simpa using h

theorem writesOf_append (a b : List BringUpOp) :
    writesOf (a ++ b) = writesOf a ++ writesOf b := by
  simp [writesOf, List.filterMap_append]

theorem writesOf_delay : writesOf [BringUpOp.settleDelay] = [] := rfl

theorem writesOf_cons_delay (ops : List BringUpOp) :
    writesOf (BringUpOp.settleDelay :: ops) = writesOf ops := by
  simp [writesOf]

theorem writesOf_runStep (f : HandshakeStep → Bool) (s : HandshakeStep) :
    writesOf (runStep f s) = [s] := by
  rcases Bool.eq_false_or_eq_true (f s) with hf | hf <;>
    simp [writesOf, runStep, hf]

/-- C5 counterexample: in the all-successful bring-up run, not every write
is followed by a settling delay before the next write (no delay separates
the notification request from the init packet, nor the init packet from the
proximity-keys request). -/
theorem bring_up_delay_counterexample :
    delayBetweenWrites (bringUp fun _ => false) = false := by
  decide

/-- C5 (amended): the bring-up issues the five writes in the fixed order
handshake, set-feature-flags, request-notifications, init packet,
request-proximity-keys regardless of which steps fail; a settling delay
follows only the handshake and set-feature-flags writes (none separates the
later steps); a step failure only adds an error log and never aborts the
sequence. -/
theorem bring_up_amended (fails : HandshakeStep → Bool) :
    writesOf (bringUp fails)
      = [HandshakeStep.handshake, HandshakeStep.setFeatureFlags,
         HandshakeStep.requestNotifications, HandshakeStep.initPacket,
         HandshakeStep.proximityKeys]
    ∧ delayFollows (bringUp fails) = [true, true, false, false, true]
    ∧ (∀ s, BringUpOp.logError s ∈ bringUp fails ↔ fails s = true) := by
  refine ⟨?_, ?_, ?_⟩
  · simp [bringUp, writesOf_append, writesOf_runStep, writesOf_delay,
      writesOf_cons_delay]
  · rcases Bool.eq_false_or_eq_true (fails HandshakeStep.handshake) with h1 | h1 <;>
    rcases Bool.eq_false_or_eq_true (fails HandshakeStep.setFeatureFlags) with h2 | h2 <;>
    rcases Bool.eq_false_or_eq_true (fails HandshakeStep.requestNotifications) with h3 | h3 <;>
    rcases Bool.eq_false_or_eq_true (fails HandshakeStep.initPacket) with h4 | h4 <;>
    rcases Bool.eq_false_or_eq_true (fails HandshakeStep.proximityKeys) with h5 | h5 <;>
      simp [bringUp, runStep, h1, h2, h3, h4, h5, delayFollows, nextWriteAfterDelay]
  · intro s
    rcases Bool.eq_false_or_eq_true (fails HandshakeStep.handshake) with h1 | h1 <;>
    rcases Bool.eq_false_or_eq_true (fails HandshakeStep.setFeatureFlags) with h2 | h2 <;>
    rcases Bool.eq_false_or_eq_true (fails HandshakeStep.requestNotifications) with h3 | h3 <;>
    rcases Bool.eq_false_or_eq_true (fails HandshakeStep.initPacket) with h4 | h4 <;>
    rcases Bool.eq_false_or_eq_true (fails HandshakeStep.proximityKeys) with h5 | h5 <;>
    cases s <;>
      simp [bringUp, runStep, h1, h2, h3, h4, h5]

/-- Witness for C5 (amended) at the all-failing run. -/
theorem bring_up_amended_witness :
    writesOf (bringUp fun _ => true)
      = [HandshakeStep.handshake, HandshakeStep.setFeatureFlags,
         HandshakeStep.requestNotifications, HandshakeStep.initPacket,
         HandshakeStep.proximityKeys]
    ∧ delayFollows (bringUp fun _ => true) = [true, true, false, false, true] :=
  ⟨(bring_up_amended fun _ => true).1, (bring_up_amended fun _ => true).2.1⟩

/-- C6: a hand-off action (media-information packet followed by an add-peer
packet) is produced exactly for the MACs present in the new connected-device
list, absent from the old one, and different from the local adapter's MAC;
with distinct MACs in the new list each such peer gets exactly one action,
and every produced action has this two-packet shape. -/
theorem handoff_actions_exact (localMac : String)
    (oldDevices newDevices : List ConnectedDeviceInfo)
    (hnd : (newDevices.map ConnectedDeviceInfo.mac).Nodup) :
    (∀ m, [HandOffPacket.mediaInformation localMac m, HandOffPacket.addPeer localMac m]
          ∈ handOffActions localMac oldDevices newDevices
        ↔ (m ∈ newDevices.map ConnectedDeviceInfo.mac
            ∧ m ∉ oldDevices.map ConnectedDeviceInfo.mac ∧ m ≠ localMac))
    ∧ (handOffActions localMac oldDevices newDevices).Nodup
    ∧ ∀ a ∈ handOffActions localMac oldDevices newDevices,
        ∃ m, a = [HandOffPacket.mediaInformation localMac m,
                  HandOffPacket.addPeer localMac m]
          ∧ m ∈ newDevices.map ConnectedDeviceInfo.mac
          ∧ m ∉ oldDevices.map ConnectedDeviceInfo.mac ∧ m ≠ localMac := by
  have hfactor : handOffActions localMac oldDevices newDevices
      = ((new_devices_filtered localMac oldDevices newDevices).map
          ConnectedDeviceInfo.mac).map
          (fun m => [HandOffPacket.mediaInformation localMac m,
                     HandOffPacket.addPeer localMac m]) := by
    rw [List.map_map]
    rfl
  have hinj : Function.Injective
      (fun m => [HandOffPacket.mediaInformation localMac m,
                 HandOffPacket.addPeer localMac m]) := by
    intro a b hab
    simpa using hab
  have hmem : ∀ m,
      m ∈ (new_devices_filtered localMac oldDevices newDevices).map
            ConnectedDeviceInfo.mac
      ↔ (m ∈ newDevices.map ConnectedDeviceInfo.mac
          ∧ m ∉ oldDevices.map ConnectedDeviceInfo.mac ∧ m ≠ localMac) := by
    intro m
    simp only [new_devices_filtered, List.mem_map, List.mem_filter,
      Bool.and_eq_true, List.all_eq_true, bne_iff_ne, ne_eq]
    constructor
    · rintro ⟨d, ⟨hdnew, hold, hlocal⟩, rfl⟩
      refine ⟨⟨d, hdnew, rfl⟩, ?_, hlocal⟩
      rintro ⟨od, hodmem, hodmac⟩
      exact hold od hodmem hodmac
    · rintro ⟨⟨d, hdnew, rfl⟩, hold, hlocal⟩
      refine ⟨d, ⟨hdnew, ?_, hlocal⟩, rfl⟩
      intro od hodmem hodmac
      exact hold ⟨od, hodmem, hodmac⟩
  have hndf : ((new_devices_filtered localMac oldDevices newDevices).map
      ConnectedDeviceInfo.mac).Nodup := by
    have hsub : ((new_devices_filtered localMac oldDevices newDevices).map
        ConnectedDeviceInfo.mac).Sublist
          (newDevices.map ConnectedDeviceInfo.mac) :=
      (List.filter_sublist _).map _
    exact hnd.sublist hsub
  refine ⟨?_, ?_, ?_⟩
  · intro m
    rw [hfactor]
    exact (List.mem_map_of_injective hinj).trans (hmem m)
  · rw [hfactor]
    exact hndf.map hinj
  · intro a ha
    rw [hfactor] at ha
    obtain ⟨m, hm, rfl⟩ := List.mem_map.mp ha
    exact ⟨m, rfl, (hmem m).mp hm⟩

/-- Witness for C6: `old = [A, B]`, `new = [A, B, C]`, local MAC `L` yields
the one action for `C`; `new = [A, B]` yields no action. -/
theorem handoff_actions_exact_witness :
    ([HandOffPacket.mediaInformation "L" "C", HandOffPacket.addPeer "L" "C"]
        ∈ handOffActions "L"
            [⟨"A", "", ""⟩, ⟨"B", "", ""⟩]
            [⟨"A", "", ""⟩, ⟨"B", "", ""⟩, ⟨"C", "", ""⟩])
    ∧ handOffActions "L" [⟨"A", "", ""⟩, ⟨"B", "", ""⟩]
        [⟨"A", "", ""⟩, ⟨"B", "", ""⟩] = [] := by
  have h1 := handoff_actions_exact "L" [⟨"A", "", ""⟩, ⟨"B", "", ""⟩]
    [⟨"A", "", ""⟩, ⟨"B", "", ""⟩, ⟨"C", "", ""⟩] (by decide)
  have h2 := handoff_actions_exact "L" [⟨"A", "", ""⟩, ⟨"B", "", ""⟩]
    [⟨"A", "", ""⟩, ⟨"B", "", ""⟩] (by decide)
  constructor
  · exact (h1.1 "C").mpr (by decide)
  · apply List.eq_nil_iff_forall_not_mem.mpr
    intro a ha
    obtain ⟨m, rfl, hm, hnm, _⟩ := h2.2.2 a ha
    exact hnm hm

/-- C7: the `OwnershipToFalseRequest` handler enqueues the
set-ownership-false control command and then performs exactly the
pause-and-deactivate action that the `OwnsConnection` subscriber performs
when the observed value denotes false. -/
theorem ownership_loss_actions (value : List Nat) (hv : value.getD 0 0 = 0) :
    ownsConnectionSubscriber value
        = [SessionAction.pauseAllMedia, SessionAction.deactivateA2dp]
    ∧ ownershipToFalseHandler
        = SessionAction.enqueueCommand ControlCommandIdentifiers.OwnsConnection [0x00]
            :: ownsConnectionSubscriber value := by
  have h : ownsConnectionSubscriber value
      = [SessionAction.pauseAllMedia, SessionAction.deactivateA2dp] := by
    unfold ownsConnectionSubscriber
    rw [hv]
    simp
  exact ⟨h, by rw [h]; rfl⟩

/-- Witness for C7 at the concrete value `[0x00]`. -/
theorem ownership_loss_actions_witness :
    ownsConnectionSubscriber [0]
        = [SessionAction.pauseAllMedia, SessionAction.deactivateA2dp]
    ∧ ownershipToFalseHandler
        = SessionAction.enqueueCommand ControlCommandIdentifiers.OwnsConnection [0x00]
            :: ownsConnectionSubscriber [0] :=
  ownership_loss_actions [0] rfl

theorem processReport_mono (aesEnc : List Nat → List Nat → List Nat)
    (devices : List (String × DeviceData)) (st : MonitorCache)
    (addr addr' : String) (r' : ReportOutcome)
    (h : processReport aesEnc devices st addr' = some r') :
    (addr ∈ st.failed → addr ∈ r'.cache.failed)
    ∧ (∀ m, st.verified.lookup addr = some m →
        r'.cache.verified.lookup addr = some m) := by
  unfold processReport at h
  split at h
  next mac hlook =>
    injection h with h
    subst h
    exact ⟨fun hf => hf, fun m hm => hm⟩
  next hlook =>
    split at h
    next hf' =>
      injection h with h
      subst h
      exact ⟨fun hf => hf, fun m hm => hm⟩
    next hf' =>
      split at h
      next hc =>
        exact absurd h (by simp)
      next mac n hc =>
        injection h with h
        subst h
        refine ⟨fun hf => hf, fun m hm => ?_⟩
        have hne : (addr == addr') = false := by
          by_cases he : addr = addr'
          · subst he
            rw [hlook] at hm
            exact absurd hm (by simp)
          · simp [he]
        simp [List.lookup, hne, hm]
      next n hc =>
        injection h with h
        subst h
        exact ⟨fun hf => List.mem_cons_of_mem _ hf, fun m hm => hm⟩

/-- C8: once a report's address has been settled by the monitor — failed
against every known record, or matched — the verdict is cached, a later
report from the same address is settled from the cache with zero further
RPA verifications and unchanged caches, and processing reports from other
addresses in between preserves the cached verdict. -/
theorem report_cache_skip (aesEnc : List Nat → List Nat → List Nat)
    (devices : List (String × DeviceData)) (st : MonitorCache) (addr : String)
    (r : ReportOutcome) (h : processReport aesEnc devices st addr = some r) :
    (r.matched = none →
      addr ∈ r.cache.failed
      ∧ processReport aesEnc devices r.cache addr = some ⟨none, r.cache, 0⟩)
    ∧ (∀ mac, r.matched = some mac →
        r.cache.verified.lookup addr = some mac
        ∧ processReport aesEnc devices r.cache addr = some ⟨some mac, r.cache, 0⟩)
    ∧ (∀ addr' r', processReport aesEnc devices r.cache addr' = some r' →
        (addr ∈ r.cache.failed → addr ∈ r'.cache.failed)
        ∧ ∀ m, r.cache.verified.lookup addr = some m →
            r'.cache.verified.lookup addr = some m) := by
  have hmono : ∀ addr' r',
      processReport aesEnc devices r.cache addr' = some r' →
      (addr ∈ r.cache.failed → addr ∈ r'.cache.failed)
      ∧ ∀ m, r.cache.verified.lookup addr = some m →
          r'.cache.verified.lookup addr = some m :=
    fun addr' r' h' => processReport_mono aesEnc devices r.cache addr addr' r' h'
  unfold processReport at h
  split at h
  next mac hlook =>
    injection h with h
    subst h
    refine ⟨?_, ?_, hmono⟩
    · intro hm
      exact absurd hm (by simp)
    · intro mac' hm
      have hmm : mac = mac' := by simpa using hm
      subst hmm
      refine ⟨hlook, ?_⟩
      unfold processReport
      rw [hlook]
  next hlook =>
    split at h
    next hf =>
      injection h with h
      subst h
      refine ⟨?_, ?_, hmono⟩
      · intro _
        refine ⟨hf, ?_⟩
        unfold processReport
        rw [hlook, if_pos hf]
      · intro mac hm
        exact absurd hm (by simp)
    next hf =>
      split at h
      next hc =>
        exact absurd h (by simp)
      next mac n hc =>
        injection h with h
        subst h
        refine ⟨?_, ?_, hmono⟩
        · intro hm
          exact absurd hm (by simp)
        · intro mac' hm
          have hmm : mac = mac' := by simpa using hm
          subst hmm
          have hlook2 : ((addr, mac) :: st.verified).lookup addr = some mac := by
            simp [List.lookup]
          refine ⟨hlook2, ?_⟩
          unfold processReport
          rw [hlook2]
      next n hc =>
        injection h with h
        subst h
        refine ⟨?_, ?_, hmono⟩
        · intro _
          refine ⟨List.mem_cons_self _ _, ?_⟩
          unfold processReport
          rw [hlook, if_pos (List.mem_cons_self _ _)]
        · intro mac hm
          exact absurd hm (by simp)

/-- Witness for C8: a concrete run in which the only record's IRK rejects
the address, followed by a second report from the same address that is
skipped from the negative cache with zero verifications. -/
theorem report_cache_skip_witness :
    "01:02:03:04:05:06" ∈ ["01:02:03:04:05:06"]
    ∧ processReport (fun _ d => d)
        [("AA:AA", ⟨DeviceType.AirPods, ⟨"00000000000000000000000000000000", ""⟩⟩)]
        ⟨[], ["01:02:03:04:05:06"]⟩ "01:02:03:04:05:06"
      = some ⟨none, ⟨[], ["01:02:03:04:05:06"]⟩, 0⟩ :=
  (report_cache_skip (fun _ d => d)
    [("AA:AA", ⟨DeviceType.AirPods, ⟨"00000000000000000000000000000000", ""⟩⟩)]
    ⟨[], []⟩ "01:02:03:04:05:06" ⟨none, ⟨[], ["01:02:03:04:05:06"]⟩, 1⟩
    (by decide)).1 rfl

/-- C9: an address already in the in-flight set gets no second connect
attempt and leaves the set unchanged; otherwise exactly one attempt is
issued, with the insertion into the set coming first, the removal happening
exactly on success, and a failed attempt leaving the address in the set. -/
theorem inflight_connect_guard (cm : List String) (addr : String) (succeeds : Bool) :
    (addr ∈ cm → connectAttempt cm addr succeeds = ([], cm))
    ∧ (addr ∉ cm →
        (connectAttempt cm addr succeeds).1.count (ConnectOp.attemptOp addr) = 1
        ∧ (connectAttempt cm addr succeeds).1.take 2
            = [ConnectOp.insertOp addr, ConnectOp.attemptOp addr]
        ∧ (ConnectOp.removeOp addr ∈ (connectAttempt cm addr succeeds).1
            ↔ succeeds = true)
        ∧ (succeeds = true → (connectAttempt cm addr succeeds).2 = cm)
        ∧ (succeeds = false → addr ∈ (connectAttempt cm addr succeeds).2)) := by
  constructor
  · intro hmem
    simp [connectAttempt, hmem]
  · intro hmem
    rcases Bool.eq_false_or_eq_true succeeds with hs | hs <;> subst hs <;>
      simp [connectAttempt, hmem, List.count_cons, List.erase_cons_head]

/-- Witness for C9: a present address is skipped; a failed fresh attempt
leaves the address in the set. -/
theorem inflight_connect_guard_witness :
    connectAttempt ["X"] "X" true = ([], ["X"])
    ∧ "X" ∈ (connectAttempt [] "X" false).2 := by
  have h1 := (inflight_connect_guard ["X"] "X" true).1 (by decide)
  have h2 := (inflight_connect_guard [] "X" false).2 (by decide)
  exact ⟨h1, h2.2.2.2.2 rfl⟩

/-- C10: with a missing or unparsable preferences file, a device without an
entry, or an entry without an `autoConnect` key, the auto-connect preference
evaluates to true, so a disconnected-state advertisement passes the
reconnect guard. -/
theorem auto_connect_default (mac : String) (raw : Option Preferences)
    (prefs : List (String × Bool)) :
    autoConnectPref (loadPreferences none) mac = true
    ∧ ((loadPreferences raw).lookup mac = none →
        autoConnectPref (loadPreferences raw) mac = true)
    ∧ ((loadPreferences raw).lookup mac = some prefs →
        prefs.lookup "autoConnect" = none →
        autoConnectPref (loadPreferences raw) mac = true)
    ∧ shouldAttemptReconnect 0 none mac = true := by
  refine ⟨?_, ?_, ?_, ?_⟩
  · simp [autoConnectPref, loadPreferences]
  · intro h
    simp [autoConnectPref, h]
  · intro h1 h2
    simp [autoConnectPref, h1, h2]
  · simp [shouldAttemptReconnect, autoConnectPref, loadPreferences]

/-- Witness for C10 at a concrete MAC with no stored preferences. -/
theorem auto_connect_default_witness :
    autoConnectPref (loadPreferences none) "AA:BB:CC:DD:EE:FF" = true
    ∧ shouldAttemptReconnect 0 none "AA:BB:CC:DD:EE:FF" = true := by
  have h := auto_connect_default "AA:BB:CC:DD:EE:FF" none []
  exact ⟨h.1, h.2.2.2⟩

end LibrePods
